import Mathlib

/-!
Shallow embedding of the mern-api task-tracking service (Engineer-anand/mern-api)
and proofs about its tenant-isolation, task-lifecycle, slug, sweeper and auth
behaviour.

The embedding follows the JavaScript source:
- `src/models/Task.js`, `src/models/User.js`, `src/models/Organization.js`
  (schemas and their pre-save hooks),
- `src/routes/tasks.js` (list/get/create/update/delete/stats handlers),
- `src/routes/auth.js` (register/login/join handlers),
- the tenant middleware and the hourly expiration job (unnamed source files).

Mongo documents become Lean structures; ObjectIds become `Nat`; timestamps
become `Nat` (epoch milliseconds); the document store becomes a `List` of
documents; `findOne` becomes `List.find?`; fallible handlers return an explicit
result type carrying the HTTP outcome.  External collaborators (bcrypt, JWT,
express-validator's sanitizers) are modelled as parameters or noted inline.
-/

namespace Mern

/-- Task/user enums from the Mongoose schemas. -/
inductive Role
  | Admin
  | Manager
  | Member
deriving DecidableEq, Repr

inductive Status
  | Todo
  | InProgress
  | Completed
  | Expired
deriving DecidableEq, Repr

inductive Priority
  | Low
  | Medium
  | High
deriving DecidableEq, Repr

inductive Category
  | Bug
  | Feature
  | Improvement
deriving DecidableEq, Repr

/-- One entry of `taskSchema.comments`. -/
structure TaskComment where
  user : Nat
  text : String
  createdAt : Nat
deriving DecidableEq, Repr

/-- One entry of `taskSchema.attachments` (metadata only). -/
structure TaskAttachment where
  filename : String
  originalName : String
  size : Nat
  uploadedBy : Option Nat
  uploadedAt : Nat
deriving DecidableEq, Repr

/-- A task document (`src/models/Task.js`). -/
structure Task where
  id : Nat
  title : String
  description : Option String
  status : Status
  priority : Priority
  category : Category
  dueDate : Option Nat
  completedAt : Option Nat
  assignedTo : Option Nat
  createdBy : Nat
  organization : Nat
  comments : List TaskComment
  attachments : List TaskAttachment
  createdAt : Nat
deriving DecidableEq, Repr

/-- A user document (`src/models/User.js`).  The password field holds the
bcrypt hash (hashing itself is an external collaborator). -/
structure User where
  id : Nat
  name : String
  email : String
  password : String
  organization : Option Nat
  role : Role
  isActive : Bool
  lastLogin : Option Nat
  inviteToken : Option String
  inviteExpires : Option Nat
deriving DecidableEq, Repr

/-- An organization document (`src/models/Organization.js`); the `settings`
sub-document is not touched by any claim and is omitted. -/
structure Organization where
  id : Nat
  name : String
  slug : String
  description : Option String
  isActive : Bool
  createdBy : Nat
deriving DecidableEq, Repr

/-- The authenticated request context after the `auth` and `tenantIsolation`
middlewares ran: `req.user._id`, `req.user.role` and
`req.organizationId = req.user.organization._id`. -/
structure Actor where
  id : Nat
  role : Role
  organizationId : Nat
deriving DecidableEq, Repr

/-- Outcome of a task-route handler: the JSON value on success, or the HTTP
error the handler sends. -/
inductive Res (α : Type)
  | ok (value : α)
  | validationError
  | forbidden (message : String)
  | notFound
  | badRequest (message : String)
deriving DecidableEq, Repr

/-! ### The PUT /tasks/:id request body

The update handler copies *every* key of `req.body` onto the task
(`Object.keys(req.body).forEach((key) => { task[key] = req.body[key] })`),
so the body is modelled as a list of typed key/value assignments.  Keys the
express-validator chain covers are `title`, `description`, `status`,
`priority`, `category`, `dueDate` and `assignedTo`; the handler has no
whitelist, so keys such as `organization` and `completedAt` pass through the
copy loop unvalidated.  Enum-valued fields carry the already-cast value; the
validator constraint on the raw string is expressed on that value
(for `status`, `isIn(["Todo", "In Progress", "Completed"])` excludes
`Expired`). -/
inductive BodyField
  | title (v : String)
  | description (v : String)
  | status (v : Status)
  | priority (v : Priority)
  | category (v : Category)
  | dueDate (v : Nat)
  | assignedTo (v : Nat)
  | organization (v : Nat)
  | completedAt (v : Option Nat)
deriving DecidableEq, Repr

inductive FieldKey
  | title
  | description
  | status
  | priority
  | category
  | dueDate
  | assignedTo
  | organization
  | completedAt
deriving DecidableEq, Repr

/-- The `.trim()` sanitizer of express-validator (JS `String.prototype.trim`):
strip whitespace from both ends. -/
def jsTrim (s : String) : String :=
  List.asString
    (((s.data.dropWhile Char.isWhitespace).reverse.dropWhile
      Char.isWhitespace).reverse)

def BodyField.key : BodyField → FieldKey
  | .title _ => .title
  | .description _ => .description
  | .status _ => .status
  | .priority _ => .priority
  | .category _ => .category
  | .dueDate _ => .dueDate
  | .assignedTo _ => .assignedTo
  | .organization _ => .organization
  | .completedAt _ => .completedAt

/-- The express-validator chain of PUT /tasks/:id, per body key.  Keys without
a validator (`organization`, `completedAt`) are accepted unchecked. -/
def validField : BodyField → Bool
  | .title v => 1 ≤ (jsTrim v).length && (jsTrim v).length ≤ 200
  | .description v => v.length ≤ 2000
  | .status v => !(v = Status.Expired)
  | .priority _ => true
  | .category _ => true
  | .dueDate _ => true
  | .assignedTo _ => true
  | .organization _ => true
  | .completedAt _ => true

def validateUpdateBody (body : List BodyField) : Bool :=
  body.all validField

/-- One step of the field-copy loop `task[key] = req.body[key]` (with the
`dueDate` values passed through `new Date`, and `title` carrying the
`.trim()` sanitizer of its validator). -/
def applyField (t : Task) : BodyField → Task
  | .title v => { t with title := jsTrim v }
  | .description v => { t with description := some v }
  | .status v => { t with status := v }
  | .priority v => { t with priority := v }
  | .category v => { t with category := v }
  | .dueDate v => { t with dueDate := some v }
  | .assignedTo v => { t with assignedTo := some v }
  | .organization v => { t with organization := v }
  | .completedAt v => { t with completedAt := v }

def applyBody (t : Task) (body : List BodyField) : Task :=
  body.foldl applyField t

/-- `taskSchema.pre("save")` from `src/models/Task.js`: when the status path
was modified, set `completedAt` on completion and clear it otherwise.
`this.isModified("status")` is modelled as the saved status differing from the
loaded one (Mongoose does not mark a path modified when it is re-assigned an
equal value, and JSON bodies cannot repeat a key). -/
def taskPreSave (orig : Task) (now : Nat) (t : Task) : Task :=
  if t.status = orig.status then t
  else if t.status = Status.Completed && t.completedAt.isNone then
    { t with completedAt := some now }
  else if !(t.status = Status.Completed) then
    { t with completedAt := none }
  else t

/-- `Task.findOne({ _id: id, organization: orgId })`. -/
def findTask (tasks : List Task) (orgId id : Nat) : Option Task :=
  tasks.find? (fun t => t.id = id && t.organization = orgId)

/-- Whether `task.assignedTo?.equals(req.user._id)` holds. -/
def isAssignee (t : Task) (a : Actor) : Bool :=
  match t.assignedTo with
  | some u => u = a.id
  | none => false

/-- Modelled from the spec: the `authorize("Admin", "Manager")` middleware of
`src/middleware/auth.js` is not among the provided sources; per §4.3 of the
spec (and the repository tests, which expect 403) it denies any other role
with a ForbiddenError before the handler runs. -/
def authorizeAdminManager (a : Actor) : Bool :=
  a.role = Role.Admin || a.role = Role.Manager

/-- GET /tasks/:id. -/
def getTask (tasks : List Task) (a : Actor) (id : Nat) : Res Task :=
  match findTask tasks a.organizationId id with
  | none => .notFound
  | some t =>
    if a.role = Role.Member then
      if !(isAssignee t a) && !(t.createdBy = a.id) then
        .forbidden "Access denied"
      else .ok t
    else .ok t

/-- `req.body.assignedTo` as read by the update handler: the value of the
`assignedTo` key, if present (JSON keys are unique; with duplicates the last
assignment is the one the copy loop leaves in place, so the last is taken). -/
def bodyAssignedTo (body : List BodyField) : Option Nat :=
  body.reverse.findSome? (fun f =>
    match f with
    | .assignedTo v => some v
    | _ => none)

/-- `Object.keys(req.body)` restricted to `allowedFields = ["status"]`:
true when some key is not `status`. -/
def hasInvalidMemberFields (body : List BodyField) : Bool :=
  body.any (fun f => !(f.key = FieldKey.status))

/-- `User.findOne({ _id: a, organization: orgId, isActive: true })`. -/
def validAssignee (users : List User) (orgId a : Nat) : Bool :=
  users.any (fun u => u.id = a && u.organization = some orgId && u.isActive)

/-- PUT /tasks/:id: validation, org-scoped load, Member permission checks,
assignee re-validation, field-copy loop, pre-save hook, persist.  Returns the
handler outcome together with the resulting task store. -/
def updateTask (tasks : List Task) (users : List User) (a : Actor) (id : Nat)
    (body : List BodyField) (now : Nat) : Res Task × List Task :=
  if !(validateUpdateBody body) then (.validationError, tasks)
  else
    match findTask tasks a.organizationId id with
    | none => (.notFound, tasks)
    | some t =>
      if a.role = Role.Member && !(isAssignee t a) then
        (.forbidden "Access denied", tasks)
      else if a.role = Role.Member && hasInvalidMemberFields body then
        (.forbidden "Members can only update task status", tasks)
      else
        let assignOk :=
          match bodyAssignedTo body with
          | none => true
          | some v => validAssignee users a.organizationId v
        if !assignOk then (.badRequest "Invalid assigned user", tasks)
        else
          let t' := taskPreSave t now (applyBody t body)
          (.ok t', tasks.map (fun x => if x.id = t.id then t' else x))

/-- DELETE /tasks/:id: `authorize("Admin", "Manager")` then
`findOneAndDelete` scoped to the organization. -/
def deleteTask (tasks : List Task) (a : Actor) (id : Nat) :
    Res Unit × List Task :=
  if !(authorizeAdminManager a) then (.forbidden "Access denied", tasks)
  else
    match findTask tasks a.organizationId id with
    | none => (.notFound, tasks)
    | some t => (.ok (), tasks.erase t)

/-- POST /tasks: `authorize("Admin", "Manager")`, field validation, assignee
validation, then construction with the schema defaults
(status `Todo`, priority `Medium` when absent) and
`createdBy = req.user._id`, `organization = req.organizationId`.
The status path is not explicitly assigned on the new document, so the
pre-save hook's `isModified("status")` guard leaves `completedAt` unset. -/
def createTask (tasks : List Task) (users : List User) (a : Actor)
    (title : String) (description : Option String) (category : Category)
    (priority : Option Priority) (dueDate : Option Nat)
    (assignedTo : Option Nat) (newId now : Nat) : Res Task × List Task :=
  if !(authorizeAdminManager a) then (.forbidden "Access denied", tasks)
  else if !(1 ≤ (jsTrim title).length && (jsTrim title).length ≤ 200
      && (match description with | some d => d.length ≤ 2000 | none => true)) then
    (.validationError, tasks)
  else
    let assignOk :=
      match assignedTo with
      | none => true
      | some v => validAssignee users a.organizationId v
    if !assignOk then (.badRequest "Invalid assigned user", tasks)
    else
      let t : Task :=
        { id := newId
          title := jsTrim title
          description := description
          status := Status.Todo
          priority := priority.getD Priority.Medium
          category := category
          dueDate := dueDate
          completedAt := none
          assignedTo := assignedTo
          createdBy := a.id
          organization := a.organizationId
          comments := []
          attachments := []
          createdAt := now }
      (.ok t, tasks ++ [t])

/-! ### GET /tasks (list) and GET /tasks/stats/overview -/

structure ListQuery where
  page : Option Nat
  limit : Option Nat
  status : Option Status
  priority : Option Priority
  category : Option Category
  assignedTo : Option Nat
deriving Repr

structure Pagination where
  page : Nat
  limit : Nat
  total : Nat
  pages : Nat
deriving DecidableEq, Repr

/-- The Mongo filter built by the list handler: always the organization, the
optional query filters, and for Members additionally
`$or: [{assignedTo: me}, {createdBy: me}]`. -/
def listFilter (a : Actor) (q : ListQuery) (t : Task) : Bool :=
  t.organization = a.organizationId
    && (match q.status with | some s => t.status = s | none => true)
    && (match q.priority with | some p => t.priority = p | none => true)
    && (match q.category with | some c => t.category = c | none => true)
    && (match q.assignedTo with | some u => t.assignedTo = some u | none => true)
    && (if a.role = Role.Member then
          isAssignee t a || t.createdBy = a.id
        else true)

/-- GET /tasks: filter, sort by `createdAt` descending, paginate
(`page` default 1, `limit` default 10, `pages = ceil(total / limit)`). -/
def listTasks (tasks : List Task) (a : Actor) (q : ListQuery) :
    List Task × Pagination :=
  let page := q.page.getD 1
  let limit := q.limit.getD 10
  let matched := tasks.filter (listFilter a q)
  let sorted := matched.mergeSort (fun x y => decide (y.createdAt ≤ x.createdAt))
  (((sorted.drop ((page - 1) * limit)).take limit),
    { page := page, limit := limit, total := matched.length
      pages := (matched.length + limit - 1) / limit })

/-- The `$match` stage of the stats aggregation: organization plus, for
Members, the same `$or` restriction as the list handler. -/
def statsScope (tasks : List Task) (a : Actor) : List Task :=
  tasks.filter (fun t =>
    t.organization = a.organizationId
      && (if a.role = Role.Member then
            isAssignee t a || t.createdBy = a.id
          else true))

structure StatsOverview where
  total : Nat
  todo : Nat
  inProgress : Nat
  completed : Nat
  expired : Nat
  overdue : Nat
deriving DecidableEq, Repr

/-- A task counted as overdue by the stats aggregation: status neither
Completed nor Expired and a set dueDate lying in the past. -/
def isOverdueStat (now : Nat) (t : Task) : Bool :=
  !(t.status = Status.Completed) && !(t.status = Status.Expired)
    && (match t.dueDate with | some d => d < now | none => false)

/-- GET /tasks/stats/overview. -/
def getStats (tasks : List Task) (a : Actor) (now : Nat) : StatsOverview :=
  let l := statsScope tasks a
  { total := l.length
    todo := l.countP (fun t => t.status = Status.Todo)
    inProgress := l.countP (fun t => t.status = Status.InProgress)
    completed := l.countP (fun t => t.status = Status.Completed)
    expired := l.countP (fun t => t.status = Status.Expired)
    overdue := l.countP (isOverdueStat now) }

/-! ### The hourly expiration sweep (`taskExpirationJob`)

`Task.updateMany({ dueDate: { $lt: now }, status: { $nin: ["Completed",
"Expired"] } }, { $set: { status: "Expired" } })`.  A `$lt` filter matches
only documents whose `dueDate` is present. -/

def sweepMatches (now : Nat) (t : Task) : Bool :=
  (match t.dueDate with | some d => d < now | none => false)
    && !(t.status = Status.Completed) && !(t.status = Status.Expired)

def sweepTask (now : Nat) (t : Task) : Task :=
  if sweepMatches now t then { t with status := Status.Expired } else t

def sweep (now : Nat) (tasks : List Task) : List Task :=
  tasks.map (sweepTask now)

/-- `modifiedCount` of the bulk update: every matched document gets a status
it did not have, so matched = modified. -/
def sweepModifiedCount (now : Nat) (tasks : List Task) : Nat :=
  tasks.countP (sweepMatches now)

/-! ### Organization slugs (`organizationSchema.pre("save")`)

The hook lowercases the name, replaces every character outside `[a-z0-9]`
with a dash, collapses dash runs and strips one leading and one trailing
dash; it then probes `baseSlug`, `baseSlug-1`, `baseSlug-2`, … against the
other organizations' slugs until a free one is found. -/

def slugChar (c : Char) : Char :=
  if (('a' ≤ c && c ≤ 'z') || ('0' ≤ c && c ≤ '9')) then c else '-'

/-- The dash-run-collapsing replace: each run of dashes becomes one dash. -/
def collapseDashes : List Char → List Char
  | [] => []
  | c :: rest =>
    match collapseDashes rest with
    | [] => [c]
    | d :: tail =>
      if c = '-' && d = '-' then d :: tail else c :: d :: tail

/-- The edge-trimming replace removes one dash occurrence at each end. -/
def dropLeadDash : List Char → List Char
  | [] => []
  | c :: rest => if c = '-' then rest else c :: rest

def slugify (s : String) : String :=
  (List.asString
    (dropLeadDash ((dropLeadDash
      (collapseDashes ((s.data.map Char.toLower).map slugChar))).reverse)).reverse)

/-- The candidate probed at loop iteration `k`: the base slug for `k = 0`,
then `base-1`, `base-2`, … (the JS template literal renders the counter in
decimal, which is `Nat.repr`). -/
def slugCandidate (base : String) : Nat → String
  | 0 => base
  | k + 1 => base ++ "-" ++ Nat.repr (k + 1)

/-- Numeric value of a decimal digit character (used to show `Nat.repr` is
injective, which makes the probed slug candidates pairwise distinct). -/
def digitVal (c : Char) : Nat := c.toNat - 48

def evalDigits (l : List Char) : Nat :=
  l.foldl (fun a c => 10 * a + digitVal c) 0

/-- The hook's while-loop.  The JS loop is unbounded; here the fuel
`taken.length + 1` bounds the iterations, and `findFreeSlug_not_mem` below
shows a free candidate is always reached strictly before the fuel runs out,
so the bounded and the unbounded loop agree. -/
def findFreeSlugAux (taken : List String) (base : String) :
    Nat → Nat → String
  | count, 0 => slugCandidate base count
  | count, fuel + 1 =>
    if slugCandidate base count ∈ taken then
      findFreeSlugAux taken base (count + 1) fuel
    else slugCandidate base count

/-- The slug the pre-save hook stores, given the other organizations
(`_id: { $ne: this._id }`) already in the store. -/
def hookSlug (others : List Organization) (name : String) : String :=
  findFreeSlugAux (others.map (·.slug)) (slugify name) 0
    (others.length + 1)

/-- Organization creation during POST /auth/register.  The handler constructs
the document with `slug: generateSlug(organizationName)`, but the pre-save
hook fires on the new document (its name path is modified) and overwrites the
slug with `hookSlug`, so the constructor's value never reaches the store. -/
def registerOrg (orgs : List Organization) (newId : Nat) (name : String)
    (createdBy : Nat) : List Organization :=
  let o : Organization :=
    { id := newId
      name := name
      slug := hookSlug (orgs.filter (fun x => !(x.id = newId))) name
      description := none
      isActive := true
      createdBy := createdBy }
  orgs ++ [o]

/-- Saving an organization whose name was changed: the hook recomputes the
slug against all other organizations and the document is persisted in
place. -/
def renameOrg (orgs : List Organization) (id : Nat) (newName : String) :
    List Organization :=
  match orgs.find? (fun o => o.id = id) with
  | none => orgs
  | some o =>
    let others := orgs.filter (fun x => !(x.id = id))
    let o' : Organization :=
      { o with name := newName, slug := hookSlug others newName }
    orgs.map (fun x => if x.id = id then o' else x)

/-! ### POST /auth/login and POST /auth/join -/

/-- Outcome of an auth handler: the logged-in/created user on success, or the
HTTP status and message of the JSON error body. -/
inductive AuthOutcome
  | ok (u : User)
  | err (status : Nat) (message : String)
deriving DecidableEq, Repr

/-- `User.findOne({ email, isActive: true })`: a missing account and a
deactivated account fall into the same branch. -/
def findLoginUser (users : List User) (email : String) : Option User :=
  users.find? (fun u => u.email = email && u.isActive)

/-- POST /auth/login, for a request that passed the express-validator chain.
`cmp` is the external `bcrypt.compare` capability.  On success `lastLogin` is
updated and persisted (the password pre-save hook does not fire: the password
path is unmodified). -/
def login (users : List User) (cmp : String → String → Bool)
    (email password : String) (now : Nat) : AuthOutcome × List User :=
  match findLoginUser users email with
  | none => (.err 400 "Invalid credentials", users)
  | some u =>
    if !(cmp password u.password) then (.err 400 "Invalid credentials", users)
    else
      let u' := { u with lastLogin := some now }
      (.ok u', users.map (fun x => if x.id = u.id then u' else x))

/-- `User.findOne({ inviteToken, inviteExpires: { $gt: Date.now() } })`:
the placeholder user holding a matching, unexpired invite token. -/
def findInviteUser (users : List User) (token : String) (now : Nat) :
    Option User :=
  users.find? (fun u =>
    u.inviteToken = some token
      && (match u.inviteExpires with | some e => now < e | none => false))

/-- The Member user document the join handler constructs: bound to the
invite's organization, active, with no invite token of its own. -/
def joinUser (hash : String → String) (name email password : String)
    (orgId newId : Nat) : User :=
  { id := newId
    name := name
    email := email
    password := hash password
    organization := some orgId
    role := Role.Member
    isActive := true
    lastLogin := none
    inviteToken := none
    inviteExpires := none }

/-- POST /auth/join, for a request that passed the express-validator chain.
`hash` is the external bcrypt hashing applied by the user pre-save hook.
If the placeholder's populated organization were null, the handler would
throw reading `existingUser.organization._id` and the catch-all would answer
500. -/
def join (users : List User) (hash : String → String)
    (name email password token : String) (newId now : Nat) :
    AuthOutcome × List User :=
  match findInviteUser users token now with
  | none => (.err 400 "Invalid or expired invite token", users)
  | some inviter =>
    if users.any (fun u => u.email = email) then
      (.err 400 "User already exists", users)
    else
      match inviter.organization with
      | none => (.err 500 "Server error during registration", users)
      | some orgId =>
        let u : User := joinUser hash name email password orgId newId
        (.ok u, users ++ [u])

/-! ### Sample documents used by concrete evaluations -/

def sampleTask : Task :=
  { id := 1
    title := "t"
    description := none
    status := Status.Todo
    priority := Priority.Medium
    category := Category.Bug
    dueDate := none
    completedAt := none
    assignedTo := some 7
    createdBy := 2
    organization := 1
    comments := []
    attachments := []
    createdAt := 0 }

def otherOrgTask : Task := { sampleTask with organization := 2 }

def overdueTask : Task := { sampleTask with id := 3, dueDate := some 50 }

def expiredTask : Task := { sampleTask with id := 4, status := Status.Expired }

def adminActor : Actor := { id := 2, role := Role.Admin, organizationId := 1 }

def memberActor : Actor := { id := 7, role := Role.Member, organizationId := 1 }

def emptyQuery : ListQuery :=
  { page := none, limit := none, status := none, priority := none
    category := none, assignedTo := none }

def inactiveUser : User :=
  { id := 1
    name := "n"
    email := "a@b.c"
    password := "pw"
    organization := some 1
    role := Role.Member
    isActive := false
    lastLogin := none
    inviteToken := none
    inviteExpires := none }

def activeUser : User := { inactiveUser with isActive := true }

def inviteUser : User :=
  { id := 2
    name := "i"
    email := "inv@e.x"
    password := "p"
    organization := some 1
    role := Role.Member
    isActive := false
    lastLogin := none
    inviteToken := some "tok"
    inviteExpires := some 100 }

def acmeOrg : Organization :=
  { id := 1
    name := "Acme"
    slug := "acme"
    description := none
    isActive := true
    createdBy := 5 }

def createdSample : Task :=
  { id := 9
    title := "t"
    description := none
    status := Status.Todo
    priority := Priority.Medium
    category := Category.Bug
    dueDate := none
    completedAt := none
    assignedTo := none
    createdBy := 2
    organization := 1
    comments := []
    attachments := []
    createdAt := 5 }

/-! ## Helper lemmas

### Injectivity of `Nat.repr`

Needed to show the probed slug candidates `base`, `base-1`, `base-2`, … are
pairwise distinct, so the collision loop always reaches a free slug. -/

theorem toDigitsCore_shift (b : Nat) :
    ∀ (f n : Nat) (ds : List Char),
      Nat.toDigitsCore b f n ds = Nat.toDigitsCore b f n [] ++ ds := by
  intro f
  induction f with
  | zero => intro n ds; simp [Nat.toDigitsCore]
  | succ f ih =>
    intro n ds
    simp only [Nat.toDigitsCore]
    by_cases h : n / b = 0
    · simp [h]
    · simp only [h, if_false]
      rw [ih (n / b) (Nat.digitChar (n % b) :: ds),
        ih (n / b) [Nat.digitChar (n % b)], List.append_assoc]
      rfl

theorem toDigitsCore_fuel (b : Nat) (hb : 1 < b) :
    ∀ (n f : Nat) (ds : List Char), n < f →
      Nat.toDigitsCore b f n ds = Nat.toDigitsCore b (n + 1) n ds := by
  intro n
  induction n using Nat.strong_induction_on with
  | _ n ih =>
    intro f ds hf
    obtain ⟨f, rfl⟩ : ∃ g, f = g + 1 := ⟨f - 1, by omega⟩
    simp only [Nat.toDigitsCore]
    by_cases h : n / b = 0
    · simp [h]
    · simp only [h, if_false]
      have hn : 0 < n := by
        rcases Nat.eq_zero_or_pos n with h0 | h0
        · exact absurd (by simp [h0]) h
        · exact h0
      have hlt : n / b < n := Nat.div_lt_self hn hb
      rw [ih (n / b) hlt f _ (by omega), ih (n / b) hlt n _ (by omega)]

theorem toDigits_small (n : Nat) (h : n < 10) :
    Nat.toDigits 10 n = [Nat.digitChar n] := by
  simp [Nat.toDigits, Nat.toDigitsCore, Nat.div_eq_of_lt h, Nat.mod_eq_of_lt h]

theorem toDigits_step (n : Nat) (h : 10 ≤ n) :
    Nat.toDigits 10 n =
      Nat.toDigits 10 (n / 10) ++ [Nat.digitChar (n % 10)] := by
  have hdiv : ¬(n / 10 = 0) := by
    have : 1 ≤ n / 10 := (Nat.one_le_div_iff (by omega)).mpr h
    omega
  show Nat.toDigitsCore 10 (n + 1) n [] = _
  simp only [Nat.toDigitsCore, hdiv, if_false]
  rw [toDigitsCore_fuel 10 (by omega) (n / 10) n _
      (Nat.div_lt_self (by omega) (by omega)),
    toDigitsCore_shift]
  rfl

theorem digitVal_digitChar (d : Nat) (h : d < 10) :
    digitVal (Nat.digitChar d) = d := by
  interval_cases d <;> rfl

theorem evalDigits_toDigits : ∀ n : Nat, evalDigits (Nat.toDigits 10 n) = n := by
  intro n
  induction n using Nat.strong_induction_on with
  | _ n ih =>
    by_cases h : n < 10
    · rw [toDigits_small n h]
      simp [evalDigits, digitVal_digitChar n h]
    · rw [toDigits_step n (by omega)]
      have hlt : n / 10 < n := Nat.div_lt_self (by omega) (by omega)
      simp only [evalDigits, List.foldl_append] at ih ⊢
      rw [ih (n / 10) hlt]
      simp [digitVal_digitChar (n % 10) (Nat.mod_lt n (by omega))]
      omega

theorem repr_data_injective (m n : Nat)
    (h : (Nat.repr m).data = (Nat.repr n).data) : m = n := by
  have hd : Nat.toDigits 10 m = Nat.toDigits 10 n := h
  calc m = evalDigits (Nat.toDigits 10 m) := (evalDigits_toDigits m).symm
    _ = evalDigits (Nat.toDigits 10 n) := by rw [hd]
    _ = n := evalDigits_toDigits n

theorem toDigitsCore_length_le :
    ∀ (f n : Nat) (ds : List Char),
      ds.length ≤ (Nat.toDigitsCore 10 f n ds).length := by
  intro f
  induction f with
  | zero => intro n ds; simp [Nat.toDigitsCore]
  | succ f ih =>
    intro n ds
    simp only [Nat.toDigitsCore]
    by_cases h : n / 10 = 0
    · simp [h]
    · simp only [h, if_false]
      calc ds.length ≤ (Nat.digitChar (n % 10) :: ds).length := by simp
        _ ≤ _ := ih (n / 10) (Nat.digitChar (n % 10) :: ds)

theorem repr_length_pos (n : Nat) : 1 ≤ (Nat.repr n).length := by
  show 1 ≤ (Nat.toDigits 10 n).length
  show 1 ≤ (Nat.toDigitsCore 10 (n + 1) n []).length
  simp only [Nat.toDigitsCore]
  by_cases h : n / 10 = 0
  · simp [h]
  · simp only [h, if_false]
    calc 1 = ([Nat.digitChar (n % 10)] : List Char).length := rfl
      _ ≤ _ := toDigitsCore_length_le n (n / 10) [Nat.digitChar (n % 10)]

/-! ### The slug collision loop always reaches a free slug -/

theorem slugCandidate_injective (base : String) :
    Function.Injective (slugCandidate base) := by
  have hdash : ("-" : String).length = 1 := rfl
  have hlen : ∀ k : Nat, (slugCandidate base (k + 1)).length =
      base.length + 1 + (Nat.repr (k + 1)).length := by
    intro k
    show (base ++ "-" ++ Nat.repr (k + 1)).length = _
    rw [String.length_append, String.length_append, hdash]
  intro j k h
  match j, k with
  | 0, 0 => rfl
  | 0, k + 1 =>
    exfalso
    have hl := congrArg String.length h
    rw [show slugCandidate base 0 = base from rfl, hlen k] at hl
    have hp := repr_length_pos (k + 1)
    omega
  | j + 1, 0 =>
    exfalso
    have hl := congrArg String.length h
    rw [show slugCandidate base 0 = base from rfl, hlen j] at hl
    have hp := repr_length_pos (j + 1)
    omega
  | j + 1, k + 1 =>
    have hdata := congrArg String.data h
    simp only [slugCandidate, String.data_append, List.append_assoc] at hdata
    have hrepr : (Nat.repr (j + 1)).data = (Nat.repr (k + 1)).data :=
      List.append_cancel_left (List.append_cancel_left hdata)
    rw [repr_data_injective (j + 1) (k + 1) hrepr]

theorem exists_free_candidate (taken : List String) (base : String) :
    ∃ k, k ≤ taken.length ∧ slugCandidate base k ∉ taken := by
  by_contra hall
  push_neg at hall
  have hsub : (Finset.range (taken.length + 1)).image (slugCandidate base)
      ⊆ taken.toFinset := by
    intro s hs
    rw [Finset.mem_image] at hs
    obtain ⟨k, hk, rfl⟩ := hs
    rw [Finset.mem_range] at hk
    exact List.mem_toFinset.mpr (hall k (by omega))
  have hcard := Finset.card_le_card hsub
  rw [Finset.card_image_of_injective _ (slugCandidate_injective base),
    Finset.card_range] at hcard
  have := List.toFinset_card_le taken
  omega

theorem findFreeSlugAux_not_mem (taken : List String) (base : String) :
    ∀ (fuel count : Nat),
      (∃ k, k < fuel ∧ slugCandidate base (count + k) ∉ taken) →
      findFreeSlugAux taken base count fuel ∉ taken := by
  intro fuel
  induction fuel with
  | zero =>
    intro count h
    obtain ⟨k, hk, _⟩ := h
    omega
  | succ fuel ih =>
    intro count h
    obtain ⟨k, hk, hfree⟩ := h
    by_cases hmem : slugCandidate base count ∈ taken
    · rw [findFreeSlugAux, if_pos hmem]
      apply ih
      match k with
      | 0 => exact absurd (by simpa using hmem) hfree
      | k + 1 =>
        exact ⟨k, by omega, by
          have : count + 1 + k = count + (k + 1) := by omega
          rw [this]; exact hfree⟩
    · rw [findFreeSlugAux, if_neg hmem]
      exact hmem

theorem hookSlug_not_mem (others : List Organization) (name : String) :
    hookSlug others name ∉ others.map (fun o => o.slug) := by
  obtain ⟨k, hk, hfree⟩ :=
    exists_free_candidate (others.map (fun o => o.slug)) (slugify name)
  apply findFreeSlugAux_not_mem
  refine ⟨k, ?_, by simpa using hfree⟩
  have : (others.map (fun o => o.slug)).length = others.length :=
    List.length_map _ _
  omega

/-! ### Slug uniqueness across organization saves -/

theorem registerOrg_slugs_nodup (orgs : List Organization)
    (newId createdBy : Nat) (name : String)
    (hid : ∀ o ∈ orgs, o.id ≠ newId)
    (hnd : (orgs.map (fun o => o.slug)).Nodup) :
    ((registerOrg orgs newId name createdBy).map (fun o => o.slug)).Nodup := by
  have hfilter : orgs.filter (fun x => !(x.id = newId)) = orgs :=
    List.filter_eq_self.mpr (fun o ho => by simp [hid o ho])
  simp only [registerOrg, hfilter, List.map_append, List.map_cons,
    List.map_nil, List.nodup_append]
  refine ⟨hnd, by simp, ?_⟩
  intro s hs
  simp only [List.mem_singleton]
  intro hcontra
  exact hookSlug_not_mem orgs name (hcontra ▸ hs)

/-- Replacing the (unique) organization with the given id by a document whose
slug collides with no other organization keeps the slug list duplicate-free. -/
theorem replace_slugs_nodup :
    ∀ (l : List Organization) (id : Nat) (o' : Organization),
      (l.map (fun o => o.id)).Nodup →
      (l.map (fun o => o.slug)).Nodup →
      (∀ x ∈ l, x.id ≠ id → o'.slug ≠ x.slug) →
      ((l.map (fun x => if x.id = id then o' else x)).map
        (fun o => o.slug)).Nodup := by
  intro l
  induction l with
  | nil => intro id o' _ _ _; simp
  | cons x xs ih =>
    intro id o' hids hslugs hdiff
    simp only [List.map_cons, List.nodup_cons] at hids hslugs
    obtain ⟨hxid, hidsxs⟩ := hids
    obtain ⟨hxslug, hslugsxs⟩ := hslugs
    by_cases hx : x.id = id
    · have hxs : xs.map (fun y => if y.id = id then o' else y) = xs := by
        apply List.map_congr_left ?_ |>.trans (List.map_id xs)
        intro y hy
        have : y.id ≠ id := fun hyid => hxid (by
          rw [← hyid] at hx
          rw [hx]
          exact List.mem_map.mpr ⟨y, hy, rfl⟩)
        simp [this]
      simp only [List.map_cons, hx, if_pos rfl, hxs, List.nodup_cons]
      refine ⟨?_, hslugsxs⟩
      intro hmem
      obtain ⟨y, hy, hyslug⟩ := List.mem_map.mp hmem
      have hyid : y.id ≠ id := fun hyid => hxid (by
        rw [← hyid] at hx
        rw [hx]
        exact List.mem_map.mpr ⟨y, hy, rfl⟩)
      exact hdiff y (List.mem_cons_of_mem x hy) hyid hyslug.symm
    · simp only [List.map_cons, if_neg hx, List.nodup_cons]
      refine ⟨?_, ih id o' hidsxs hslugsxs
        (fun y hy => hdiff y (List.mem_cons_of_mem x hy))⟩
      intro hmem
      rw [List.map_map] at hmem
      obtain ⟨z, hz, hzslug⟩ := List.mem_map.mp hmem
      simp only [Function.comp] at hzslug
      by_cases hzid : z.id = id
      · rw [if_pos hzid] at hzslug
        exact hdiff x (List.mem_cons_self x xs) hx hzslug
      · rw [if_neg hzid] at hzslug
        exact hxslug (hzslug ▸ List.mem_map.mpr ⟨z, hz, rfl⟩)

theorem renameOrg_slugs_nodup (orgs : List Organization) (id : Nat)
    (newName : String)
    (hids : (orgs.map (fun o => o.id)).Nodup)
    (hnd : (orgs.map (fun o => o.slug)).Nodup) :
    ((renameOrg orgs id newName).map (fun o => o.slug)).Nodup := by
  rw [renameOrg]
  cases hfind : orgs.find? (fun o => o.id = id) with
  | none => exact hnd
  | some o =>
    apply replace_slugs_nodup orgs id _ hids hnd
    intro x hx hxid hcontra
    have hcontra' :
        hookSlug (orgs.filter (fun x => !(x.id = id))) newName = x.slug :=
      hcontra
    have hfree := hookSlug_not_mem (orgs.filter (fun x => !(x.id = id))) newName
    apply hfree
    rw [hcontra']
    exact List.mem_map.mpr ⟨x, List.mem_filter.mpr ⟨hx, by simp [hxid]⟩, rfl⟩

/-! ### Task-handler helper lemmas -/

/-- With ids unique, the org-scoped `findOne` cannot see a task that belongs
to another organization. -/
theorem findTask_none_of_other_org (tasks : List Task) (t : Task)
    (orgId : Nat) (hmem : t ∈ tasks)
    (hnodup : (tasks.map (fun x => x.id)).Nodup)
    (horg : ¬t.organization = orgId) :
    findTask tasks orgId t.id = none := by
  rw [findTask]
  cases hfind : tasks.find? (fun x => x.id = t.id && x.organization = orgId) with
  | none => rfl
  | some t' =>
    exfalso
    have h1 := List.find?_some hfind
    have h2 := List.mem_of_find?_eq_some hfind
    simp only [Bool.and_eq_true, decide_eq_true_eq] at h1
    obtain ⟨hid, horg'⟩ := h1
    have := List.inj_on_of_nodup_map hnodup h2 hmem hid
    rw [this] at horg'
    exact horg horg'

theorem isAssignee_eq_true (t : Task) (a : Actor) :
    isAssignee t a = true ↔ t.assignedTo = some a.id := by
  rw [isAssignee]
  cases t.assignedTo <;> simp

/-- The pre-save hook only rewrites `completedAt`; it never changes the
status being saved. -/
theorem taskPreSave_status (orig : Task) (now : Nat) (t : Task) :
    (taskPreSave orig now t).status = t.status := by
  rw [taskPreSave]
  by_cases h1 : t.status = orig.status
  · rw [if_pos h1]
  · rw [if_neg h1]
    by_cases h2 : (t.status = Status.Completed && t.completedAt.isNone) = true
    · rw [if_pos h2]
    · rw [if_neg h2]
      by_cases h3 : (!(t.status = Status.Completed)) = true
      · rw [if_pos h3]
      · rw [if_neg h3]

/-- The field-copy loop leaves the status unchanged unless the body carries a
status key, in which case the saved status is one of the carried values. -/
theorem applyBody_status :
    ∀ (body : List BodyField) (t : Task),
      (applyBody t body).status = t.status ∨
      ∃ v, BodyField.status v ∈ body ∧ (applyBody t body).status = v := by
  intro body
  induction body with
  | nil => intro t; exact Or.inl rfl
  | cons f rest ih =>
    intro t
    have hstep : applyBody t (f :: rest) = applyBody (applyField t f) rest := rfl
    rw [hstep]
    rcases ih (applyField t f) with h | ⟨v, hv, hstat⟩
    · rw [h]
      cases f with
      | status v => exact Or.inr ⟨v, List.mem_cons_self _ _, rfl⟩
      | title v => exact Or.inl rfl
      | description v => exact Or.inl rfl
      | priority v => exact Or.inl rfl
      | category v => exact Or.inl rfl
      | dueDate v => exact Or.inl rfl
      | assignedTo v => exact Or.inl rfl
      | organization v => exact Or.inl rfl
      | completedAt v => exact Or.inl rfl
    · exact Or.inr ⟨v, List.mem_cons_of_mem f hv, hstat⟩

/-- A body whose keys are all `status` carries no `assignedTo` value. -/
theorem bodyAssignedTo_none_of_member_ok (body : List BodyField)
    (h : hasInvalidMemberFields body = false) : bodyAssignedTo body = none := by
  rw [bodyAssignedTo]
  rw [List.findSome?_eq_none_iff]
  intro f hf
  rw [hasInvalidMemberFields, List.any_eq_false] at h
  have := h f (List.mem_reverse.mp hf)
  cases f with
  | status v => rfl
  | title v => simp [BodyField.key] at this
  | description v => simp [BodyField.key] at this
  | priority v => simp [BodyField.key] at this
  | category v => simp [BodyField.key] at this
  | dueDate v => simp [BodyField.key] at this
  | assignedTo v => simp [BodyField.key] at this
  | organization v => simp [BodyField.key] at this
  | completedAt v => simp [BodyField.key] at this

/-- Inversion of a successful update: validation passed, the task was found
in the actor's organization, and the stored task is the loaded one with the
body applied and the pre-save hook run. -/
theorem updateTask_ok_inv (tasks : List Task) (users : List User) (a : Actor)
    (id : Nat) (body : List BodyField) (now : Nat) (t : Task)
    (h : (updateTask tasks users a id body now).1 = Res.ok t) :
    validateUpdateBody body = true ∧
    ∃ told, findTask tasks a.organizationId id = some told ∧
      t = taskPreSave told now (applyBody told body) := by
  rw [updateTask] at h
  by_cases hval : validateUpdateBody body = true
  case neg =>
    rw [if_pos (by simp [hval])] at h
    exact absurd h (by simp)
  case pos =>
    rw [if_neg (by simp [hval])] at h
    refine ⟨hval, ?_⟩
    split at h
    next => exact absurd h (by simp)
    next told hfind =>
      refine ⟨told, hfind, ?_⟩
      split at h
      next => exact absurd h (by simp)
      next h1 =>
        split at h
        next => exact absurd h (by simp)
        next h2 =>
          simp only [] at h
          split at h
          next => exact absurd h (by simp)
          next h3 =>
            simp only [Res.ok.injEq] at h
            exact h.symm

/-- A swept task never matches the sweep filter again. -/
theorem sweepMatches_sweepTask (now : Nat) (t : Task) :
    sweepMatches now (sweepTask now t) = false := by
  rw [sweepTask]
  by_cases h : sweepMatches now t = true
  · rw [if_pos h]
    simp [sweepMatches]
  · rw [if_neg h]
    simpa using h

theorem sweepTask_idem (now : Nat) (t : Task) :
    sweepTask now (sweepTask now t) = sweepTask now t := by
  rw [sweepTask, if_neg (by simp [sweepMatches_sweepTask])]

/-- The login handler has a single failure response. -/
theorem login_err_inv (users : List User) (cmp : String → String → Bool)
    (email password : String) (now s : Nat) (m : String)
    (h : (login users cmp email password now).1 = AuthOutcome.err s m) :
    s = 400 ∧ m = "Invalid credentials" := by
  rw [login] at h
  split at h
  next =>
    simp only [AuthOutcome.err.injEq] at h
    exact ⟨h.1.symm, h.2.symm⟩
  next u hu =>
    by_cases hcmp : cmp password u.password = true
    · rw [if_neg (by simp [hcmp])] at h
      simp at h
    · rw [if_pos (by simp [hcmp])] at h
      simp only [AuthOutcome.err.injEq] at h
      exact ⟨h.1.symm, h.2.symm⟩

/-! ## Claims -/

/-- C7: one sweeper tick marks as Expired exactly the tasks (of any
organization) whose dueDate is set and earlier than now and whose status is
neither Completed nor Expired; it changes no other field (in particular it
never emits completedAt); and an immediate second run with the same clock
modifies zero tasks. -/
theorem C7_sweeper_correct (now : Nat) (tasks : List Task) :
    (∀ t, ((sweepTask now t).status = Status.Expired ↔
        (sweepMatches now t = true ∨ t.status = Status.Expired))) ∧
    (∀ t, sweepMatches now t = false → sweepTask now t = t) ∧
    (∀ t, (sweepTask now t).completedAt = t.completedAt ∧
      (sweepTask now t).id = t.id ∧
      (sweepTask now t).title = t.title ∧
      (sweepTask now t).description = t.description ∧
      (sweepTask now t).priority = t.priority ∧
      (sweepTask now t).category = t.category ∧
      (sweepTask now t).dueDate = t.dueDate ∧
      (sweepTask now t).assignedTo = t.assignedTo ∧
      (sweepTask now t).createdBy = t.createdBy ∧
      (sweepTask now t).organization = t.organization ∧
      (sweepTask now t).comments = t.comments ∧
      (sweepTask now t).attachments = t.attachments ∧
      (sweepTask now t).createdAt = t.createdAt) ∧
    sweep now (sweep now tasks) = sweep now tasks ∧
    sweepModifiedCount now (sweep now tasks) = 0 := by
  refine ⟨?_, ?_, ?_, ?_, ?_⟩
  · intro t
    by_cases h : sweepMatches now t = true
    · rw [sweepTask, if_pos h]
      simp [h]
    · rw [sweepTask, if_neg h]
      simp only [Bool.not_eq_true] at h
      simp [h]
  · intro t h
    rw [sweepTask, if_neg (by simp [h])]
  · intro t
    by_cases h : sweepMatches now t = true
    · rw [sweepTask, if_pos h]
      exact ⟨rfl, rfl, rfl, rfl, rfl, rfl, rfl, rfl, rfl, rfl, rfl, rfl, rfl⟩
    · rw [sweepTask, if_neg h]
      exact ⟨rfl, rfl, rfl, rfl, rfl, rfl, rfl, rfl, rfl, rfl, rfl, rfl, rfl⟩
  · rw [sweep, sweep, List.map_map]
    apply List.map_congr_left
    intro t _
    exact sweepTask_idem now t
  · rw [sweepModifiedCount, sweep]
    rw [List.countP_eq_zero]
    intro x hx
    obtain ⟨t, _, rfl⟩ := List.mem_map.mp hx
    simp [sweepMatches_sweepTask]

/-- C7 witness: the sweeper theorem applied at a concrete clock and store. -/
theorem C7_sweeper_witness :
    sweepTask 100 sampleTask = sampleTask ∧
    ((sweepTask 100 overdueTask).status = Status.Expired ↔
      (sweepMatches 100 overdueTask = true ∨
        overdueTask.status = Status.Expired)) ∧
    sweep 100 (sweep 100 [overdueTask, expiredTask]) =
      sweep 100 [overdueTask, expiredTask] ∧
    sweepModifiedCount 100 (sweep 100 [overdueTask, expiredTask]) = 0 :=
  ⟨(C7_sweeper_correct 100 [sampleTask]).2.1 sampleTask (by decide),
   (C7_sweeper_correct 100 [overdueTask]).1 overdueTask,
   (C7_sweeper_correct 100 [overdueTask, expiredTask]).2.2.2.1,
   (C7_sweeper_correct 100 [overdueTask, expiredTask]).2.2.2.2⟩

/-- C5: a Member's task listing only ever contains tasks where the Member is
the assignee or the creator, for every filter/pagination combination. -/
theorem C5_member_list_restricted (tasks : List Task) (a : Actor)
    (q : ListQuery) (hrole : a.role = Role.Member) :
    ∀ t ∈ (listTasks tasks a q).1,
      t.assignedTo = some a.id ∨ t.createdBy = a.id := by
  intro t ht
  simp only [listTasks] at ht
  have h1 : t ∈ (tasks.filter (listFilter a q)).mergeSort
      (fun x y => decide (y.createdAt ≤ x.createdAt)) :=
    List.drop_subset _ _ (List.take_subset _ _ ht)
  have h2 := (List.mem_filter.mp (List.mem_mergeSort.mp h1)).2
  rw [listFilter] at h2
  simp only [hrole, if_true, Bool.and_eq_true, reduceIte] at h2
  rcases Bool.or_eq_true_iff.mp h2.2 with hA | hC
  · exact Or.inl ((isAssignee_eq_true t a).mp hA)
  · exact Or.inr (by simpa using hC)

/-- C9: the three login failure causes (unknown email, deactivated account,
wrong password for an existing active account) produce the identical
InvalidCredentialsError response, and any two failing login runs are
indistinguishable through the error channel. -/
theorem C9_login_failure_indistinguishable :
    (∀ (users : List User) (cmp : String → String → Bool)
        (email password : String) (now : Nat),
      (∀ u ∈ users, ¬u.email = email) →
      (login users cmp email password now).1 =
        AuthOutcome.err 400 "Invalid credentials") ∧
    (∀ (users : List User) (cmp : String → String → Bool)
        (email password : String) (now : Nat),
      (∀ u ∈ users, u.email = email → u.isActive = false) →
      (login users cmp email password now).1 =
        AuthOutcome.err 400 "Invalid credentials") ∧
    (∀ (users : List User) (cmp : String → String → Bool)
        (email password : String) (now : Nat) (u : User),
      findLoginUser users email = some u →
      cmp password u.password = false →
      (login users cmp email password now).1 =
        AuthOutcome.err 400 "Invalid credentials") ∧
    (∀ (users1 : List User) (cmp1 : String → String → Bool)
        (email1 pw1 : String) (now1 s1 : Nat) (m1 : String)
        (users2 : List User) (cmp2 : String → String → Bool)
        (email2 pw2 : String) (now2 s2 : Nat) (m2 : String),
      (login users1 cmp1 email1 pw1 now1).1 = AuthOutcome.err s1 m1 →
      (login users2 cmp2 email2 pw2 now2).1 = AuthOutcome.err s2 m2 →
      s1 = s2 ∧ m1 = m2) := by
  refine ⟨?_, ?_, ?_, ?_⟩
  · intro users cmp email password now h
    have hnone : findLoginUser users email = none := by
      rw [findLoginUser, List.find?_eq_none]
      intro u hu
      simp [h u hu]
    rw [login, hnone]
  · intro users cmp email password now h
    have hnone : findLoginUser users email = none := by
      rw [findLoginUser, List.find?_eq_none]
      intro u hu
      simp only [Bool.and_eq_true, decide_eq_true_eq, not_and]
      intro hemail
      simp [h u hu hemail]
    rw [login, hnone]
  · intro users cmp email password now u hfind hcmp
    rw [login, hfind]
    simp [hcmp]
  · intro users1 cmp1 email1 pw1 now1 s1 m1 users2 cmp2 email2 pw2 now2 s2 m2
      h1 h2
    obtain ⟨hs1, hm1⟩ := login_err_inv users1 cmp1 email1 pw1 now1 s1 m1 h1
    obtain ⟨hs2, hm2⟩ := login_err_inv users2 cmp2 email2 pw2 now2 s2 m2 h2
    exact ⟨hs1.trans hs2.symm, hm1.trans hm2.symm⟩

/-- C9 witness: the three causes evaluated on concrete stores (no such email;
inactive user; wrong password), plus the two-run comparison. -/
theorem C9_login_failure_witness :
    (login [] (fun p h => p = h) "x@y.z" "pw" 9).1 =
      AuthOutcome.err 400 "Invalid credentials" ∧
    (login [inactiveUser] (fun p h => p = h) "a@b.c" "pw" 9).1 =
      AuthOutcome.err 400 "Invalid credentials" ∧
    (login [activeUser] (fun p h => p = h) "a@b.c" "wrong" 9).1 =
      AuthOutcome.err 400 "Invalid credentials" ∧
    (400 = 400 ∧ "Invalid credentials" = "Invalid credentials") :=
  ⟨C9_login_failure_indistinguishable.1 [] (fun p h => p = h) "x@y.z" "pw" 9
      (by decide),
   C9_login_failure_indistinguishable.2.1 [inactiveUser] (fun p h => p = h)
      "a@b.c" "pw" 9 (by decide),
   C9_login_failure_indistinguishable.2.2.1 [activeUser] (fun p h => p = h)
      "a@b.c" "wrong" 9 activeUser (by decide) (by decide),
   C9_login_failure_indistinguishable.2.2.2 [] (fun p h => p = h) "x@y.z"
      "pw" 9 400 "Invalid credentials" [] (fun p h => p = h) "q@r.s" "pw2" 3
      400 "Invalid credentials"
      (C9_login_failure_indistinguishable.1 [] (fun p h => p = h) "x@y.z"
        "pw" 9 (by decide))
      (C9_login_failure_indistinguishable.1 [] (fun p h => p = h) "q@r.s"
        "pw2" 3 (by decide))⟩

/-- C1 counterexample: a Member-role actor deleting another organization's
task is answered with ForbiddenError by the role check, not with the
NotFoundError the claim requires regardless of role. -/
theorem C1_member_delete_counterexample :
    otherOrgTask ∈ [otherOrgTask] ∧
    ¬otherOrgTask.organization = memberActor.organizationId ∧
    deleteTask [otherOrgTask] memberActor otherOrgTask.id =
      (Res.forbidden "Access denied", [otherOrgTask]) ∧
    ¬(deleteTask [otherOrgTask] memberActor otherOrgTask.id).1 =
      Res.notFound := by
  decide

/-- C1 (amended): for a task of another organization (ids unique in the
store): get returns NotFoundError for every role; update returns
NotFoundError (when the body passes validation) and never writes the store;
delete returns NotFoundError for Admin/Manager but ForbiddenError for a
Member (the role check precedes the query) and never writes the store; and
list/stats scopes never include the task. -/
theorem C1_tenant_isolation_amended (tasks : List Task) (users : List User)
    (a : Actor) (t : Task)
    (hmem : t ∈ tasks)
    (hnodup : (tasks.map (fun x => x.id)).Nodup)
    (horg : ¬t.organization = a.organizationId) :
    getTask tasks a t.id = Res.notFound ∧
    (∀ (body : List BodyField) (now : Nat), validateUpdateBody body = true →
      updateTask tasks users a t.id body now = (Res.notFound, tasks)) ∧
    (∀ (body : List BodyField) (now : Nat),
      (updateTask tasks users a t.id body now).2 = tasks) ∧
    (authorizeAdminManager a = true →
      deleteTask tasks a t.id = (Res.notFound, tasks)) ∧
    (a.role = Role.Member →
      deleteTask tasks a t.id = (Res.forbidden "Access denied", tasks)) ∧
    (∀ q : ListQuery, ¬t ∈ (listTasks tasks a q).1) ∧
    ¬t ∈ statsScope tasks a := by
  have hnone := findTask_none_of_other_org tasks t a.organizationId hmem
    hnodup horg
  refine ⟨?_, ?_, ?_, ?_, ?_, ?_, ?_⟩
  · simp [getTask, hnone]
  · intro body now hval
    simp [updateTask, hval, hnone]
  · intro body now
    by_cases hval : validateUpdateBody body = true
    · simp [updateTask, hval, hnone]
    · have hv : validateUpdateBody body = false := by
        revert hval
        cases validateUpdateBody body <;> simp
      simp [updateTask, hv]
  · intro hauth
    simp [deleteTask, hauth, hnone]
  · intro hrole
    simp [deleteTask, authorizeAdminManager, hrole]
  · intro q ht
    simp only [listTasks] at ht
    have h1 := List.drop_subset _ _ (List.take_subset _ _ ht)
    have h2 := (List.mem_filter.mp (List.mem_mergeSort.mp h1)).2
    rw [listFilter] at h2
    simp only [Bool.and_eq_true, decide_eq_true_eq] at h2
    exact horg h2.1.1.1.1.1
  · intro ht
    have h2 := (List.mem_filter.mp ht).2
    simp only [Bool.and_eq_true, decide_eq_true_eq] at h2
    exact horg h2.1

/-- C1 witness: the amended theorem at a concrete cross-organization store,
exercising every operation. -/
theorem C1_tenant_isolation_witness :
    getTask [otherOrgTask] adminActor otherOrgTask.id = Res.notFound ∧
    updateTask [otherOrgTask] [] adminActor otherOrgTask.id [] 0 =
      (Res.notFound, [otherOrgTask]) ∧
    deleteTask [otherOrgTask] adminActor otherOrgTask.id =
      (Res.notFound, [otherOrgTask]) ∧
    deleteTask [otherOrgTask] memberActor otherOrgTask.id =
      (Res.forbidden "Access denied", [otherOrgTask]) ∧
    ¬otherOrgTask ∈ (listTasks [otherOrgTask] adminActor emptyQuery).1 ∧
    ¬otherOrgTask ∈ statsScope [otherOrgTask] adminActor :=
  have h1 := C1_tenant_isolation_amended [otherOrgTask] [] adminActor
    otherOrgTask (by decide) (by decide) (by decide)
  have h2 := C1_tenant_isolation_amended [otherOrgTask] [] memberActor
    otherOrgTask (by decide) (by decide) (by decide)
  ⟨h1.1, h1.2.1 [] 0 (by decide), h1.2.2.2.1 (by decide),
   h2.2.2.2.2.1 (by decide), h1.2.2.2.2.2.1 emptyQuery, h1.2.2.2.2.2.2⟩

/-- C2 (refuting evaluation): the update handler's field-copy loop has no
whitelist for Admin/Manager bodies, so a body carrying an `organization` key
passes validation and rewrites the task's organization in the store. -/
theorem C2_update_can_change_organization :
    validateUpdateBody [BodyField.organization 999] = true ∧
    sampleTask.organization = 1 ∧
    (updateTask [sampleTask] [] adminActor 1 [BodyField.organization 999]
        50).1 = Res.ok { sampleTask with organization := 999 } ∧
    (updateTask [sampleTask] [] adminActor 1 [BodyField.organization 999]
        50).2 = [{ sampleTask with organization := 999 }] := by
  decide

/-- C3 (refuting evaluation): a body carrying a `completedAt` key passes
validation, the copy loop stores it, and the pre-save hook does not fire
(status unmodified), leaving a Todo task with a non-null completedAt. -/
theorem C3_update_can_break_completedAt :
    validateUpdateBody [BodyField.completedAt (some 5)] = true ∧
    sampleTask.status = Status.Todo ∧
    sampleTask.completedAt = none ∧
    (updateTask [sampleTask] [] adminActor 1 [BodyField.completedAt (some 5)]
        50).2 = [{ sampleTask with completedAt := some 5 }] ∧
    ({ sampleTask with completedAt := some 5 } : Task).status = Status.Todo ∧
    ¬({ sampleTask with completedAt := some 5 } : Task).completedAt = none := by
  decide

/-- C4: for a Member-role update on a task found in their organization (body
passing input validation): a non-assignee is denied with ForbiddenError; an
assignee whose body carries any non-status key is denied as a whole with
ForbiddenError and the store is unchanged; a body whose keys are all
`status` is applied. -/
theorem C4_member_update_policy (tasks : List Task) (users : List User)
    (a : Actor) (id : Nat) (body : List BodyField) (now : Nat) (t : Task)
    (hrole : a.role = Role.Member)
    (hval : validateUpdateBody body = true)
    (hfind : findTask tasks a.organizationId id = some t) :
    (isAssignee t a = false →
      updateTask tasks users a id body now =
        (Res.forbidden "Access denied", tasks)) ∧
    (isAssignee t a = true → hasInvalidMemberFields body = true →
      updateTask tasks users a id body now =
        (Res.forbidden "Members can only update task status", tasks)) ∧
    (isAssignee t a = true → hasInvalidMemberFields body = false →
      updateTask tasks users a id body now =
        (Res.ok (taskPreSave t now (applyBody t body)),
          tasks.map (fun x =>
            if x.id = t.id then taskPreSave t now (applyBody t body)
            else x))) := by
  refine ⟨?_, ?_, ?_⟩
  · intro hassignee
    rw [updateTask, if_neg (by simp [hval]), hfind]
    simp [hrole, hassignee]
  · intro hassignee hinv
    rw [updateTask, if_neg (by simp [hval]), hfind]
    simp [hrole, hassignee, hinv]
  · intro hassignee hinv
    rw [updateTask, if_neg (by simp [hval]), hfind]
    simp [hrole, hassignee, hinv, bodyAssignedTo_none_of_member_ok body hinv]

/-- C4 witness: the Member policy theorem at concrete stores: denial of a
non-assignee, whole-request denial of a title-carrying body by the assignee,
and application of a status-only body. -/
theorem C4_member_update_witness :
    updateTask [{ sampleTask with assignedTo := some 8 }] [] memberActor 1
        [BodyField.status Status.Completed] 50 =
      (Res.forbidden "Access denied", [{ sampleTask with assignedTo := some 8 }]) ∧
    updateTask [sampleTask] [] memberActor 1
        [BodyField.status Status.Completed, BodyField.title "x"] 50 =
      (Res.forbidden "Members can only update task status", [sampleTask]) ∧
    updateTask [sampleTask] [] memberActor 1
        [BodyField.status Status.Completed] 50 =
      (Res.ok (taskPreSave sampleTask 50
          (applyBody sampleTask [BodyField.status Status.Completed])),
        [taskPreSave sampleTask 50
          (applyBody sampleTask [BodyField.status Status.Completed])]) :=
  ⟨(C4_member_update_policy [{ sampleTask with assignedTo := some 8 }] []
      memberActor 1 [BodyField.status Status.Completed] 50
      { sampleTask with assignedTo := some 8 }
      (by decide) (by decide) (by decide)).1 (by decide),
   (C4_member_update_policy [sampleTask] [] memberActor 1
      [BodyField.status Status.Completed, BodyField.title "x"] 50 sampleTask
      (by decide) (by decide) (by decide)).2.1 (by decide) (by decide),
   (C4_member_update_policy [sampleTask] [] memberActor 1
      [BodyField.status Status.Completed] 50 sampleTask
      (by decide) (by decide) (by decide)).2.2 (by decide) (by decide)⟩

/-- C8: tasks are created with status Todo; a successful update yields an
Expired status only if the loaded task was already Expired (so only the
sweeper introduces Expired); and a body attempting to set status=Expired is
rejected by validation. -/
theorem C8_expired_only_by_sweeper :
    (∀ (tasks : List Task) (users : List User) (a : Actor) (title : String)
        (descr : Option String) (cat : Category) (prio : Option Priority)
        (due assignee : Option Nat) (newId now : Nat) (t : Task),
      (createTask tasks users a title descr cat prio due assignee newId
          now).1 = Res.ok t →
      t.status = Status.Todo) ∧
    (∀ (tasks : List Task) (users : List User) (a : Actor) (id : Nat)
        (body : List BodyField) (now : Nat) (t told : Task),
      findTask tasks a.organizationId id = some told →
      (updateTask tasks users a id body now).1 = Res.ok t →
      t.status = Status.Expired → told.status = Status.Expired) ∧
    (∀ (tasks : List Task) (users : List User) (a : Actor) (id : Nat)
        (body : List BodyField) (now : Nat),
      BodyField.status Status.Expired ∈ body →
      updateTask tasks users a id body now = (Res.validationError, tasks)) := by
  refine ⟨?_, ?_, ?_⟩
  · intro tasks users a title descr cat prio due assignee newId now t h
    rw [createTask.eq_def] at h
    split at h
    next => exact absurd h (by simp)
    next =>
      split at h
      next => exact absurd h (by simp)
      next =>
        simp only [] at h
        split at h
        next => exact absurd h (by simp)
        next =>
          simp only [Res.ok.injEq] at h
          rw [← h]
  · intro tasks users a id body now t told hfind hok hexp
    obtain ⟨hval, told', hfind', ht⟩ := updateTask_ok_inv tasks users a id
      body now t hok
    rw [hfind] at hfind'
    obtain rfl : told = told' := by injection hfind'
    rw [ht, taskPreSave_status] at hexp
    rcases applyBody_status body told with hsame | ⟨v, hv, hval'⟩
    · rw [hsame] at hexp
      exact hexp
    · exfalso
      rw [validateUpdateBody, List.all_eq_true] at hval
      have := hval (BodyField.status v) hv
      rw [hval'] at hexp
      rw [hexp] at this
      simp [validField] at this
  · intro tasks users a id body now hmem
    have hfalse : validateUpdateBody body = false := by
      rw [validateUpdateBody]
      rw [List.all_eq_false]
      exact ⟨BodyField.status Status.Expired, hmem, by simp [validField]⟩
    rw [updateTask, if_pos (by simp [hfalse])]

/-- C8 witness: a concrete creation yielding Todo, a no-op update on an
already-Expired task, and a rejected attempt to set status=Expired. -/
theorem C8_expired_witness :
    createdSample.status = Status.Todo ∧
    expiredTask.status = Status.Expired ∧
    updateTask [sampleTask] [] adminActor 1 [BodyField.status Status.Expired]
        0 = (Res.validationError, [sampleTask]) :=
  ⟨C8_expired_only_by_sweeper.1 [] [] adminActor "t" none Category.Bug none
      none none 9 5 createdSample (by decide),
   C8_expired_only_by_sweeper.2.1 [expiredTask] [] adminActor 4 [] 0
      expiredTask expiredTask (by decide) (by decide) (by decide),
   C8_expired_only_by_sweeper.2.2 [sampleTask] [] adminActor 1
      [BodyField.status Status.Expired] 0 (by decide)⟩

/-- C10: a successful join leaves every pre-existing user record — the
invite-holding placeholder with its inviteToken/inviteExpires included —
unchanged (the store only grows by the new Member), and a second join with
the same token and a different unused email succeeds while the token is
unexpired: invite tokens are multi-use, never consumed. -/
theorem C10_invite_token_not_consumed (users : List User)
    (hash : String → String)
    (name1 email1 pw1 name2 email2 pw2 token : String)
    (id1 id2 now1 now2 : Nat) (p : User)
    (hfind1 : findInviteUser users token now1 = some p)
    (hfind2 : findInviteUser users token now2 = some p)
    (horg : ¬p.organization = none)
    (hm1 : ∀ u ∈ users, ¬u.email = email1)
    (hm2 : ∀ u ∈ users, ¬u.email = email2)
    (hne : ¬email2 = email1) :
    ∃ u1, (join users hash name1 email1 pw1 token id1 now1).1 =
        AuthOutcome.ok u1 ∧
      (join users hash name1 email1 pw1 token id1 now1).2 = users ++ [u1] ∧
      p ∈ (join users hash name1 email1 pw1 token id1 now1).2 ∧
      u1.inviteToken = none ∧ u1.email = email1 ∧
      ∃ u2, (join (users ++ [u1]) hash name2 email2 pw2 token id2 now2).1 =
        AuthOutcome.ok u2 := by
  obtain ⟨orgId, horgId⟩ := Option.ne_none_iff_exists'.mp horg
  have hany1 : (users.any (fun u => u.email = email1)) = false :=
    List.any_eq_false.mpr (by intro u hu; simpa using hm1 u hu)
  refine ⟨joinUser hash name1 email1 pw1 orgId id1, ?_, ?_, ?_, rfl, rfl, ?_⟩
  · rw [join, hfind1]
    simp [hany1, horgId]
  · rw [join, hfind1]
    simp [hany1, horgId]
  · rw [join, hfind1]
    simp only [hany1, horgId]
    have hpmem : p ∈ users := by
      rw [findInviteUser] at hfind1
      exact List.mem_of_find?_eq_some hfind1
    simp [hpmem]
  · have hfind2' : findInviteUser
        (users ++ [joinUser hash name1 email1 pw1 orgId id1]) token now2 =
        some p := by
      rw [findInviteUser, List.find?_append]
      rw [findInviteUser] at hfind2
      rw [hfind2]
      rfl
    have hany2 : ((users ++ [joinUser hash name1 email1 pw1 orgId id1]).any
        (fun u => u.email = email2)) = false := by
      rw [List.any_append]
      have h1 : (users.any (fun u => u.email = email2)) = false :=
        List.any_eq_false.mpr (by intro u hu; simpa using hm2 u hu)
      simp [h1, joinUser]
      exact fun h => hne h.symm
    refine ⟨joinUser hash name2 email2 pw2 orgId id2, ?_⟩
    rw [join, hfind2']
    simp [hany2, horgId]

/-- C10 witness: two consecutive joins with the same invite token on a
concrete store both succeed and leave the placeholder untouched. -/
theorem C10_invite_token_witness :
    ∃ u1, (join [inviteUser] (fun s => s) "n1" "e1@x.y" "pw1" "tok" 10
        50).1 = AuthOutcome.ok u1 ∧
      (join [inviteUser] (fun s => s) "n1" "e1@x.y" "pw1" "tok" 10 50).2 =
        [inviteUser] ++ [u1] ∧
      inviteUser ∈ (join [inviteUser] (fun s => s) "n1" "e1@x.y" "pw1" "tok"
        10 50).2 ∧
      u1.inviteToken = none ∧ u1.email = "e1@x.y" ∧
      ∃ u2, (join ([inviteUser] ++ [u1]) (fun s => s) "n2" "e2@x.y" "pw2"
        "tok" 11 60).1 = AuthOutcome.ok u2 :=
  C10_invite_token_not_consumed [inviteUser] (fun s => s) "n1" "e1@x.y"
    "pw1" "n2" "e2@x.y" "pw2" "tok" 10 11 50 60 inviteUser (by decide)
    (by decide) (by decide) (by decide) (by decide) (by decide)

/-- When the base slug is taken but its `-1` variant is free, the collision
loop stops at the `-1` variant. -/
theorem hookSlug_second (others : List Organization) (name : String)
    (h0 : slugify name ∈ others.map (fun o => o.slug))
    (h1 : ¬(slugify name ++ "-1") ∈ others.map (fun o => o.slug)) :
    hookSlug others name = slugify name ++ "-1" := by
  rw [hookSlug]
  obtain ⟨m, hm⟩ : ∃ m, others.length = m + 1 := by
    cases others with
    | nil => simp at h0
    | cons x xs => exact ⟨xs.length, rfl⟩
  have hc1 : slugCandidate (slugify name) 1 = slugify name ++ "-1" := by
    show slugify name ++ "-" ++ Nat.repr 1 = _
    rw [String.append_assoc]
    have hd : ("-" ++ Nat.repr 1 : String) = "-1" := by decide
    rw [hd]
  rw [hm, findFreeSlugAux, if_pos (by simpa [slugCandidate] using h0)]
  simp only [Nat.zero_add]
  rw [findFreeSlugAux, hc1, if_neg h1]

/-- C6: registering a new organization and renaming an existing one both
keep slugs unique across the store (the hook recomputes the slug from the
name and re-checks it against all other organizations), and a second
organization whose name slugifies to an already-taken base slug receives the
`-1` suffix. -/
theorem C6_slug_uniqueness :
    (∀ (orgs : List Organization) (newId createdBy : Nat) (name : String),
      (∀ o ∈ orgs, ¬o.id = newId) →
      (orgs.map (fun o => o.slug)).Nodup →
      ((registerOrg orgs newId name createdBy).map
        (fun o => o.slug)).Nodup) ∧
    (∀ (orgs : List Organization) (id : Nat) (newName : String),
      (orgs.map (fun o => o.id)).Nodup →
      (orgs.map (fun o => o.slug)).Nodup →
      ((renameOrg orgs id newName).map (fun o => o.slug)).Nodup) ∧
    (∀ (orgs : List Organization) (newId createdBy : Nat) (name : String),
      (∀ o ∈ orgs, ¬o.id = newId) →
      slugify name ∈ orgs.map (fun o => o.slug) →
      ¬(slugify name ++ "-1") ∈ orgs.map (fun o => o.slug) →
      (registerOrg orgs newId name createdBy).map (fun o => o.slug) =
        orgs.map (fun o => o.slug) ++ [slugify name ++ "-1"]) := by
  refine ⟨?_, ?_, ?_⟩
  · intro orgs newId createdBy name hid hnd
    exact registerOrg_slugs_nodup orgs newId createdBy name
      (fun o ho => fun h => hid o ho h) hnd
  · intro orgs id newName hids hnd
    exact renameOrg_slugs_nodup orgs id newName hids hnd
  · intro orgs newId createdBy name hid h0 h1
    have hfilter : orgs.filter (fun x => !(x.id = newId)) = orgs :=
      List.filter_eq_self.mpr (fun o ho => by simp [hid o ho])
    simp only [registerOrg, hfilter, List.map_append, List.map_cons,
      List.map_nil, hookSlug_second orgs name h0 h1]

/-- C6 witness: a concrete store where the second organization named "Acme"
receives slug `acme-1`, and both save paths preserve uniqueness. -/
theorem C6_slug_witness :
    ((registerOrg [acmeOrg] 2 "Acme" 6).map (fun o => o.slug)).Nodup ∧
    ((renameOrg [acmeOrg] 1 "New Name").map (fun o => o.slug)).Nodup ∧
    (registerOrg [acmeOrg] 2 "Acme" 6).map (fun o => o.slug) =
      [acmeOrg].map (fun o => o.slug) ++ [slugify "Acme" ++ "-1"] :=
  ⟨C6_slug_uniqueness.1 [acmeOrg] 2 6 "Acme" (by decide) (by decide),
   C6_slug_uniqueness.2.1 [acmeOrg] 1 "New Name" (by decide) (by decide),
   C6_slug_uniqueness.2.2 [acmeOrg] 2 6 "Acme" (by decide) (by decide)
     (by decide)⟩

/-- C5 witness: the restriction theorem at a concrete member and store. -/
theorem C5_member_list_witness :
    sampleTask.assignedTo = some memberActor.id ∨
      sampleTask.createdBy = memberActor.id :=
  C5_member_list_restricted [sampleTask] memberActor emptyQuery (by decide)
    sampleTask (by
      simp [listTasks, emptyQuery, listFilter, sampleTask, memberActor,
        isAssignee, List.mergeSort_singleton])

end Mern
